import Mathlib

/-!
A verification development for the MCP-server protocol pipeline
(`mcp_server/app`): shallow embeddings, in Lean, of the pure decision,
merging, parameter-resolution, formatting and metrics logic of the
pipeline's stages, together with theorems checking the system
specification's sentences against that embedded code.

Conventions of the embedding:
* Python floats are modelled as rationals (`ℚ`); the numeric claims under
  check involve only exact decimal constants, so no rounding behaviour is
  lost.
* A Python dict key that may be absent is an `Option` field; `d.get(k, v)`
  becomes `Option.getD`.
* Calls to external collaborators (the LLM backend, the vector store, the
  web-search provider) are oracles: their results are parameters of the
  embedded functions, with an explicit constructor for a failed call.
* A `try/except` block becomes either an `Except` value or a total
  function that already returns the handler's fallback, depending on
  whether the exception escapes the function.
* Python string helpers (`str.split`, `str.join`, `"x" in s`,
  `str.lower`) are re-implemented below on `List Char` so that every
  definition evaluates by kernel reduction.
-/

/-! ## Python string primitives -/

/-- Python `sep.join(parts)`: parts interleaved with the separator. -/
def pyJoin (sep : String) : List String → String
  | [] => ""
  | [part] => part
  | part :: rest => part ++ sep ++ pyJoin sep rest

/-- Worker for `pySplit`: scans `cs` left to right, splitting at each
non-overlapping occurrence of `sep`; `cur` holds the chars of the current
field in reverse.  `fuel` bounds the recursion (call with `cs.length + 1`,
which is never exhausted). -/
def pySplitAux (sep : List Char) : Nat → List Char → List Char → List (List Char)
  | 0, cs, cur => [(cur.reverse ++ cs)]
  | _ + 1, [], cur => [cur.reverse]
  | fuel + 1, c :: rest, cur =>
    if sep.isPrefixOf (c :: rest) then
      cur.reverse :: pySplitAux sep fuel (List.drop sep.length (c :: rest)) []
    else
      pySplitAux sep fuel rest (c :: cur)

/-- Python `s.split(sep)` for a non-empty separator (Python rejects an
empty one, and the embedded code never uses one). -/
def pySplit (s sep : String) : List String :=
  if sep.data = [] then [s]
  else (pySplitAux sep.data (s.data.length + 1) s.data []).map String.mk

/-- Python `sub in s` (substring containment): for a non-empty `sub`,
`s.split(sub)` has one field exactly when `sub` does not occur. -/
def pyContains (s sub : String) : Bool :=
  (pySplit s sub).length != 1

/-- Python `s.lower()` restricted to ASCII case folding (the model names
the embedded code compares are ASCII). -/
def pyLower (s : String) : String :=
  String.mk (s.data.map Char.toLower)

/-! ## Knowledge Stage (`app/protocols/knowledge.py`)

`KnowledgeAccessProtocol` merges vector-store hits and external-search
hits into a knowledge context.  An entry of `relevant_info` is a dict
`{content, score, source}`. -/

/-- One entry of `relevant_info`. -/
structure Info where
  content : String
  score : ℚ
  source : String
deriving DecidableEq

/-- The knowledge context `{relevant_info, sources, confidence}` built by
`retrieve_knowledge`. -/
structure KnowledgeContext where
  relevant_info : List Info
  sources : List String
  confidence : ℚ
deriving DecidableEq

/-- The request-context keys `_should_perform_external_search` and the two
search helpers read, each `none` when the caller's dict omits the key
(`dict.get` supplies the documented default at the use site). -/
structure KnowledgeSearchContext where
  always_search_external : Option Bool := none
  sufficient_confidence : Option ℚ := none
  min_relevant_info : Option Nat := none
deriving DecidableEq

/-- `_should_perform_external_search(knowledge_context, context)`
(knowledge.py lines 134-149), translated clause for clause. -/
def should_perform_external_search (kc : KnowledgeContext)
    (ctx : KnowledgeSearchContext) : Bool :=
  if ctx.always_search_external.getD false then true
  else if kc.confidence ≥ ctx.sufficient_confidence.getD (85/100) then false
  else if kc.relevant_info.length < ctx.min_relevant_info.getD 2 then true
  else true

/-- One raw vector-store hit as `_perform_vector_search` reads it:
`content`, `score`, and `metadata.source` when the metadata carries one. -/
structure VectorHit where
  content : String
  score : ℚ
  metadata_source : Option String
deriving DecidableEq

/-- The running `max` accumulation of `confidence` over vector results
(knowledge.py line 122, starting from `0.0`). -/
def maxScore (results : List VectorHit) : ℚ :=
  results.foldl (fun acc r => max acc r.score) 0

/-- `_perform_vector_search` result formatting (knowledge.py lines
104-128): `none` when the store returned no hits (or the sub-search
failed, which the method swallows the same way). -/
def format_vector_results (results : List VectorHit) :
    Option KnowledgeContext :=
  if results.isEmpty then none
  else some
    { relevant_info := results.map fun r =>
        { content := r.content, score := r.score,
          source := r.metadata_source.getD "vector_db" }
      sources := results.filterMap (·.metadata_source)
      confidence := maxScore results }

/-- One raw external-search hit as `_perform_external_search` reads it
(`score` may be missing; `source` is a required field). -/
structure ExternalHit where
  content : String
  score : Option ℚ
  source : String
deriving DecidableEq

/-- `_perform_external_search` result formatting (knowledge.py lines
160-181): fixed confidence `0.7`, per-hit default score `0.7`. -/
def format_external_results (results : List ExternalHit) :
    Option KnowledgeContext :=
  if results.isEmpty then none
  else some
    { relevant_info := results.map fun r =>
        { content := r.content, score := r.score.getD (7/10),
          source := r.source }
      sources := results.map (·.source)
      confidence := 7/10 }

/-- One step of the `unique_info` dict build of `_deduplicate_and_rank`
(knowledge.py lines 190-194): keyed by `content`, replacing the stored
entry in place only when the new score is strictly greater, appending a
new key at the end (Python dicts preserve insertion order). -/
def unique_info_insert : List Info → Info → List Info
  | [], i => [i]
  | a :: rest, i =>
    if a.content = i.content then
      (if i.score > a.score then i else a) :: rest
    else
      a :: unique_info_insert rest i

/-- The `unique_info` dict after the whole loop of
`_deduplicate_and_rank`, as its (insertion-ordered) value list. -/
def unique_info (l : List Info) : List Info :=
  l.foldl unique_info_insert []

/-- `_deduplicate_and_rank(relevant_info)` (knowledge.py lines 187-199):
dedupe by exact content, then `sorted(..., key=score, reverse=True)`
(a stable descending sort). -/
def deduplicate_and_rank (l : List Info) : List Info :=
  (unique_info l).mergeSort fun a b => decide (b.score ≤ a.score)

/-- `retrieve_knowledge` (knowledge.py lines 42-86) with the two
sub-searches supplied as oracles: accumulate vector results, decide on the
external search, accumulate its results, then dedupe/rank and dedupe the
source list. -/
def retrieve_knowledge (vres : List VectorHit) (eres : List ExternalHit)
    (ctx : KnowledgeSearchContext) : KnowledgeContext :=
  let kc0 : KnowledgeContext := ⟨[], [], 0⟩
  let kc1 := match format_vector_results vres with
    | some v =>
      { relevant_info := kc0.relevant_info ++ v.relevant_info
        sources := kc0.sources ++ v.sources
        confidence := max kc0.confidence v.confidence }
    | none => kc0
  let kc2 :=
    if should_perform_external_search kc1 ctx then
      match format_external_results eres with
      | some e =>
        { relevant_info := kc1.relevant_info ++ e.relevant_info
          sources := kc1.sources ++ e.sources
          confidence := max kc1.confidence e.confidence }
      | none => kc1
    else kc1
  { relevant_info := deduplicate_and_rank kc2.relevant_info
    sources := kc2.sources.eraseDups
    confidence := kc2.confidence }

/-- Whether the `retrieve_knowledge` run with these vector results reaches
`_perform_external_search` (the branch at knowledge.py line 64). -/
def external_search_triggered (vres : List VectorHit)
    (ctx : KnowledgeSearchContext) : Bool :=
  let kc0 : KnowledgeContext := ⟨[], [], 0⟩
  let kc1 := match format_vector_results vres with
    | some v =>
      { relevant_info := kc0.relevant_info ++ v.relevant_info
        sources := kc0.sources ++ v.sources
        confidence := max kc0.confidence v.confidence }
    | none => kc0
  should_perform_external_search kc1 ctx

/-- The spec's external-search policy, written from its own words: forced
search wins, then sufficient confidence declines, then a short hit list
searches, then the fall-through searches. -/
def spec_external_search_policy (kc : KnowledgeContext)
    (ctx : KnowledgeSearchContext) : Bool :=
  if ctx.always_search_external.getD false then true
  else if kc.confidence ≥ ctx.sufficient_confidence.getD (85/100) then false
  else if kc.relevant_info.length < ctx.min_relevant_info.getD 2 then true
  else true

/-- C1: the Knowledge Stage's external-search decision equals the spec's
ordered first-match policy on every input, and with no vector hits and
`always_search_external = false` (and any positive sufficient-confidence
threshold, as the default 0.85 is) the external search is still
performed. -/
theorem c1_external_search_policy :
    (∀ (kc : KnowledgeContext) (ctx : KnowledgeSearchContext),
      should_perform_external_search kc ctx = spec_external_search_policy kc ctx) ∧
    (∀ (ctx : KnowledgeSearchContext) (eres : List ExternalHit),
      ctx.always_search_external = some false →
      0 < ctx.sufficient_confidence.getD (85/100) →
      external_search_triggered [] ctx = true ∧
      (retrieve_knowledge [] eres ctx).relevant_info =
        deduplicate_and_rank ((format_external_results eres).elim []
          (·.relevant_info))) := by
  constructor
  · intro kc ctx
    rfl
  · intro ctx eres hforce hpos
    have hdec : should_perform_external_search ⟨[], [], 0⟩ ctx = true := by
      simp [should_perform_external_search, hforce, not_le.mpr hpos, ite_self]
    refine ⟨?_, ?_⟩
    · simpa [external_search_triggered, format_vector_results] using hdec
    · simp only [retrieve_knowledge, format_vector_results, List.isEmpty_nil,
        if_true, hdec]
      cases h : format_external_results eres <;> simp [h]

/-- C1 witness: the policy equivalence and the empty-store scenario at a
concrete context (`always_search_external = false`, threshold 1,
`min_relevant_info = 2`) and one concrete external hit. -/
theorem c1_witness :
    external_search_triggered []
      ⟨some false, some 1, some 2⟩ = true := by
  have h := (c1_external_search_policy.2
    ⟨some false, some 1, some 2⟩
    [⟨"w", some 1, "s"⟩] (by decide) (by decide)).1
  exact h

/-! ### Lemmas about the `unique_info` dict build -/

/-- Every entry of the dict after one insertion is the inserted entry or
one already stored. -/
theorem mem_unique_info_insert {m : List Info} {i a : Info}
    (h : a ∈ unique_info_insert m i) : a = i ∨ a ∈ m := by
  induction m with
  | nil => simpa [unique_info_insert] using h
  | cons hd rest ih =>
    by_cases hc : hd.content = i.content
    · simp only [unique_info_insert, if_pos hc] at h
      rcases List.mem_cons.mp h with h | h
      · by_cases hs : i.score > hd.score
        · left; simpa [hs] using h
        · right; simp only [if_neg hs] at h; simp [h]
      · right; exact List.mem_cons_of_mem _ h
    · simp only [unique_info_insert, if_neg hc] at h
      rcases List.mem_cons.mp h with h | h
      · right; simp [h]
      · rcases ih h with h | h
        · left; exact h
        · right; exact List.mem_cons_of_mem _ h

/-- On a content-distinct dict, the entry surviving an insertion under the
inserted entry's content scores at least the inserted entry. -/
theorem unique_info_insert_score {m : List Info} {i : Info}
    (hm : m.Pairwise fun a b => a.content ≠ b.content) :
    ∀ a ∈ unique_info_insert m i, a.content = i.content → i.score ≤ a.score := by
  induction m with
  | nil =>
    intro a ha _
    simp only [unique_info_insert, List.mem_singleton] at ha
    exact ha ▸ le_refl _
  | cons hd rest ih =>
    rcases List.pairwise_cons.mp hm with ⟨hhd, hrest⟩
    intro a ha hac
    by_cases hc : hd.content = i.content
    · simp only [unique_info_insert, if_pos hc] at ha
      rcases List.mem_cons.mp ha with h | h
      · by_cases hs : i.score > hd.score
        · simp only [if_pos hs] at h; exact h ▸ le_refl _
        · simp only [if_neg hs] at h
          exact h ▸ (not_lt.mp hs)
      · exact absurd (hac.trans hc.symm).symm (hhd a h)
    · simp only [unique_info_insert, if_neg hc] at ha
      rcases List.mem_cons.mp ha with h | h
      · exact absurd (h ▸ hac) hc
      · exact ih hrest a h hac

/-- On a content-distinct dict, the entry surviving an insertion under a
given content scores at least any previously stored entry of that
content. -/
theorem unique_info_insert_dominates {m : List Info} {i e : Info}
    (hm : m.Pairwise fun a b => a.content ≠ b.content)
    (he : e ∈ m) (hec : e.content = i.content) :
    ∀ a ∈ unique_info_insert m i, a.content = i.content → e.score ≤ a.score := by
  induction m with
  | nil => cases he
  | cons hd rest ih =>
    rcases List.pairwise_cons.mp hm with ⟨hhd, hrest⟩
    intro a ha hac
    by_cases hc : hd.content = i.content
    · have hehd : e = hd := by
        rcases List.mem_cons.mp he with h | h
        · exact h
        · exact absurd (hec.trans hc.symm).symm (hhd e h)
      simp only [unique_info_insert, if_pos hc] at ha
      rcases List.mem_cons.mp ha with h | h
      · by_cases hs : i.score > hd.score
        · simp only [if_pos hs] at h
          exact h ▸ (hehd ▸ le_of_lt hs)
        · simp only [if_neg hs] at h
          exact h ▸ (hehd ▸ le_refl _)
      · exact absurd (hac.trans hc.symm).symm (hhd a h)
    · have herest : e ∈ rest := by
        rcases List.mem_cons.mp he with h | h
        · exact absurd (h ▸ hec) hc
        · exact h
      simp only [unique_info_insert, if_neg hc] at ha
      rcases List.mem_cons.mp ha with h | h
      · exact absurd (h ▸ hac) hc
      · exact ih hrest herest a h hac

/-- After an insertion the dict covers each previously covered content and
the inserted one. -/
theorem unique_info_insert_covers {m : List Info} {i : Info} {c : String}
    (h : (∃ e ∈ m, e.content = c) ∨ c = i.content) :
    ∃ a ∈ unique_info_insert m i, a.content = c := by
  induction m with
  | nil =>
    rcases h with ⟨e, he, _⟩ | h
    · cases he
    · exact ⟨i, by simp [unique_info_insert], h.symm⟩
  | cons hd rest ih =>
    by_cases hc : hd.content = i.content
    · simp only [unique_info_insert, if_pos hc]
      rcases h with ⟨e, he, hec⟩ | h
      · rcases List.mem_cons.mp he with h | h
        · refine ⟨if i.score > hd.score then i else hd, List.mem_cons_self _ _, ?_⟩
          by_cases hs : i.score > hd.score
          · simp only [if_pos hs]
            exact hc ▸ (h ▸ hec)
          · simp only [if_neg hs]
            exact h ▸ hec
        · exact ⟨e, List.mem_cons_of_mem _ h, hec⟩
      · refine ⟨if i.score > hd.score then i else hd, List.mem_cons_self _ _, ?_⟩
        by_cases hs : i.score > hd.score
        · simp [hs, h]
        · simp [hs, hc, h]
    · simp only [unique_info_insert, if_neg hc]
      rcases h with ⟨e, he, hec⟩ | h
      · rcases List.mem_cons.mp he with h | h
        · exact ⟨hd, List.mem_cons_self _ _, h ▸ hec⟩
        · rcases ih (Or.inl ⟨e, h, hec⟩) with ⟨a, ha, hac⟩
          exact ⟨a, List.mem_cons_of_mem _ ha, hac⟩
      · rcases ih (Or.inr h) with ⟨a, ha, hac⟩
        exact ⟨a, List.mem_cons_of_mem _ ha, hac⟩

/-- Insertion preserves content-distinctness of the dict. -/
theorem unique_info_insert_pairwise {m : List Info} {i : Info}
    (hm : m.Pairwise fun a b => a.content ≠ b.content) :
    (unique_info_insert m i).Pairwise fun a b => a.content ≠ b.content := by
  induction m with
  | nil => simp [unique_info_insert]
  | cons hd rest ih =>
    rcases List.pairwise_cons.mp hm with ⟨hhd, hrest⟩
    by_cases hc : hd.content = i.content
    · simp only [unique_info_insert, if_pos hc]
      refine List.pairwise_cons.mpr ⟨?_, hrest⟩
      intro b hb
      by_cases hs : i.score > hd.score
      · simpa [hs, hc] using hhd b hb
      · simpa [hs] using hhd b hb
    · simp only [unique_info_insert, if_neg hc]
      refine List.pairwise_cons.mpr ⟨?_, ih hrest⟩
      intro b hb
      rcases mem_unique_info_insert hb with h | h
      · exact h ▸ hc
      · exact hhd b h

/-- The loop invariant of the `unique_info` build: over the processed
prefix `p`, the accumulated dict is content-distinct, each stored entry is
a processed entry scoring at least every processed entry of its content,
and every processed content is stored. -/
def UniqueInfoInv (p acc : List Info) : Prop :=
  (acc.Pairwise fun a b => a.content ≠ b.content) ∧
  (∀ a ∈ acc, a ∈ p ∧ ∀ b ∈ p, b.content = a.content → b.score ≤ a.score) ∧
  (∀ b ∈ p, ∃ a ∈ acc, a.content = b.content)

/-- One loop step preserves the invariant. -/
theorem uniqueInfoInv_step {p acc : List Info} {i : Info}
    (h : UniqueInfoInv p acc) :
    UniqueInfoInv (p ++ [i]) (unique_info_insert acc i) := by
  obtain ⟨hpw, hmax, hcov⟩ := h
  refine ⟨unique_info_insert_pairwise hpw, ?_, ?_⟩
  · intro a ha
    rcases mem_unique_info_insert ha with hai | hacc
    · refine ⟨by simp [hai], ?_⟩
      intro b hb hbc
      rcases List.mem_append.mp hb with hbp | hbi
      · rcases hcov b hbp with ⟨e, he, hec⟩
        have h1 : b.score ≤ e.score := (hmax e he).2 b hbp hec.symm
        have h2 : e.score ≤ a.score :=
          unique_info_insert_dominates hpw he (hec.trans (hbc.trans (by simp [hai])))
            a ha (by simp [hai])
        exact h1.trans h2
      · simp only [List.mem_singleton] at hbi
        exact hbi ▸ (hai ▸ le_refl i.score)
    · rcases hmax a hacc with ⟨hap, hscore⟩
      refine ⟨List.mem_append.mpr (Or.inl hap), ?_⟩
      intro b hb hbc
      rcases List.mem_append.mp hb with hbp | hbi
      · exact hscore b hbp hbc
      · simp only [List.mem_singleton] at hbi
        have hia : i.score ≤ a.score :=
          unique_info_insert_score hpw a ha
            (hbc.symm.trans (congrArg Info.content hbi))
        rw [hbi]
        exact hia
  · intro b hb
    rcases List.mem_append.mp hb with hbp | hbi
    · rcases hcov b hbp with ⟨e, he, hec⟩
      exact unique_info_insert_covers (Or.inl ⟨e, he, hec⟩)
    · simp only [List.mem_singleton] at hbi
      exact unique_info_insert_covers (Or.inr (by simp [hbi]))

/-- The invariant holds after folding any suffix. -/
theorem uniqueInfoInv_foldl :
    ∀ (l p acc : List Info), UniqueInfoInv p acc →
      UniqueInfoInv (p ++ l) (l.foldl unique_info_insert acc)
  | [], p, acc, h => by simpa using h
  | i :: t, p, acc, h => by
    have step := uniqueInfoInv_step (i := i) h
    have rec := uniqueInfoInv_foldl t (p ++ [i]) (unique_info_insert acc i) step
    simpa [List.append_assoc] using rec

/-- The invariant for the completed `unique_info` dict. -/
theorem uniqueInfoInv_unique_info (l : List Info) :
    UniqueInfoInv l (unique_info l) := by
  have h := uniqueInfoInv_foldl l [] [] ⟨List.Pairwise.nil, by simp, by simp⟩
  simpa [unique_info] using h

/-- C2: the deduplicated, ranked `relevant_info` list has pairwise
distinct contents; each surviving entry is one of the input entries and
scores at least every input entry of the same content (so it carries the
maximum score among its duplicates); every input content survives; and
the list is sorted in descending score order. -/
theorem c2_deduplicate_and_rank (l : List Info) :
    ((deduplicate_and_rank l).Pairwise fun a b => a.content ≠ b.content) ∧
    (∀ a ∈ deduplicate_and_rank l, a ∈ l ∧
      ∀ b ∈ l, b.content = a.content → b.score ≤ a.score) ∧
    (∀ b ∈ l, ∃ a ∈ deduplicate_and_rank l, a.content = b.content) ∧
    ((deduplicate_and_rank l).Pairwise fun a b => b.score ≤ a.score) := by
  obtain ⟨hpw, hmax, hcov⟩ := uniqueInfoInv_unique_info l
  have hperm : (deduplicate_and_rank l).Perm (unique_info l) :=
    List.mergeSort_perm (unique_info l) _
  refine ⟨?_, ?_, ?_, ?_⟩
  · exact (hperm.pairwise_iff fun h => Ne.symm h).mpr hpw
  · intro a ha
    exact hmax a (hperm.mem_iff.mp ha)
  · intro b hb
    rcases hcov b hb with ⟨a, ha, hac⟩
    exact ⟨a, hperm.mem_iff.mpr ha, hac⟩
  · have hs := @List.sorted_mergeSort Info
      (fun a b : Info => decide (b.score ≤ a.score))
      (fun a b c hab hbc => by
        simp only [decide_eq_true_eq] at *
        exact le_trans hbc hab)
      (fun a b => by
        simp only [Bool.or_eq_true, decide_eq_true_eq]
        exact le_total b.score a.score)
      (unique_info l)
    exact hs.imp fun h => of_decide_eq_true h

/-- C2 witness: on a concrete merge with a duplicated content, the
deduplicated list still covers that content. -/
theorem c2_witness :
    ∃ a ∈ deduplicate_and_rank
      [⟨"a", 1, "s"⟩, ⟨"a", 2, "t"⟩, ⟨"b", 1, "u"⟩], a.content = "a" :=
  (c2_deduplicate_and_rank [⟨"a", 1, "s"⟩, ⟨"a", 2, "t"⟩, ⟨"b", 1, "u"⟩]).2.2.1
    ⟨"a", 1, "s"⟩ (List.mem_cons_self _ _)

/-! ## Reasoning Stage (`app/protocols/reasoning.py`)

`AnalyticalReasoningProtocol.analyze` runs a four-step chain of LLM
calls.  Each step's LLM interaction is an oracle outcome: the call either
returned a string that parsed into the step's expected JSON shape, or
returned a string `json.loads` rejects, or failed outright; the step's
own `try/except` maps the last two outcomes to the same per-step default.

Two chain steps join `knowledge_context["relevant_info"]` with
`"\n\n".join(...)` before (outside) their `try` block.  The entries of
`relevant_info` are dicts (see `Info`), not strings, so whenever the list
is non-empty that join raises `TypeError`, which escapes the step into
`analyze`'s own catch-all. -/

/-- The outcome of one step's LLM interaction, as seen by the step's
parser. -/
inductive StepResp (α : Type) where
  | ok (val : α)
  | badJson
  | llmFail
deriving DecidableEq

/-- An exception escaping a chain step into `analyze`'s catch-all. -/
inductive PyError where
  | typeError
deriving DecidableEq

/-- The parsed shape of step 1 (request analysis). -/
structure RequestAnalysis where
  intent : String
  domain : String
  complexity : String
  keywords : List String
deriving DecidableEq

/-- Step 1's `except` default (reasoning.py lines 137-142). -/
def default_request_analysis : RequestAnalysis :=
  ⟨"unknown", "general", "medium", []⟩

/-- `_analyze_request` (reasoning.py lines 108-142): the parsed response,
or the default on a parse or call failure. -/
def analyze_request (resp : StepResp RequestAnalysis) : RequestAnalysis :=
  match resp with
  | .ok r => r
  | _ => default_request_analysis

/-- The parsed shape of step 2 (knowledge evaluation). -/
structure KnowledgeEvaluation where
  sufficiency : String
  gaps : List String
  reliability : String
deriving DecidableEq

/-- Step 2's short-circuit result for an empty knowledge context
(reasoning.py lines 147-152). -/
def insufficient_evaluation : KnowledgeEvaluation :=
  ⟨"insufficient", ["관련 정보 없음"], "low"⟩

/-- `_evaluate_knowledge` (reasoning.py lines 144-190): empty
`relevant_info` short-circuits to "insufficient" without an LLM call;
otherwise the `"\n\n".join` over dict entries at line 155 raises
`TypeError` before the `try` block, so the call/parse handling below it
is unreachable. -/
def evaluate_knowledge (kc : KnowledgeContext)
    (_resp : StepResp KnowledgeEvaluation) :
    Except PyError KnowledgeEvaluation :=
  if kc.relevant_info.isEmpty then .ok insufficient_evaluation
  else .error .typeError

/-- The parsed shape of step 3 (key-point extraction). -/
structure KeyPoints where
  points : List String
  importance : List Int
  relevance : List Int
deriving DecidableEq

/-- Step 3's `except` default (reasoning.py lines 231-235). -/
def default_key_points : KeyPoints := ⟨[], [], []⟩

/-- `_extract_key_points` (reasoning.py lines 192-235): the `"\n\n".join`
at line 195 raises `TypeError` for a non-empty `relevant_info` of dict
entries; with an empty list the join is `""` and the step parses its LLM
response, degrading to the default on failure. -/
def extract_key_points (kc : KnowledgeContext)
    (_ra : RequestAnalysis) (resp : StepResp KeyPoints) :
    Except PyError KeyPoints :=
  if kc.relevant_info.isEmpty then
    .ok (match resp with
      | .ok k => k
      | _ => default_key_points)
  else .error .typeError

/-- The parsed shape of step 4 (response planning); `structure_` stands
for the source's `structure` key (a Lean keyword). -/
structure ResponsePlan where
  format : String
  tone : String
  structure_ : String
  sections : List String
deriving DecidableEq

/-- Step 4's `except` default (reasoning.py lines 277-282). -/
def default_response_plan : ResponsePlan :=
  ⟨"text", "neutral", "default", []⟩

/-- `_plan_response` (reasoning.py lines 237-282): joins the (string)
key points, calls the LLM and parses, degrading to the default on
failure. -/
def plan_response (_kp : KeyPoints) (_ra : RequestAnalysis)
    (resp : StepResp ResponsePlan) : ResponsePlan :=
  match resp with
  | .ok p => p
  | _ => default_response_plan

/-- The reasoning result assembled at reasoning.py lines 73-82. -/
structure ReasoningResult where
  intent : String
  domain : String
  complexity : String
  knowledge_sufficiency : String
  key_points : List String
  suggested_format : String
  tone : String
  structure_ : String
deriving DecidableEq

/-- The single fallback result of `analyze`'s catch-all (reasoning.py
lines 97-106). -/
def fallback_reasoning_result : ReasoningResult :=
  ⟨"unknown", "general", "medium", "unknown", [], "text", "neutral", "default"⟩

/-- `analyze` (reasoning.py lines 31-106): the four-step chain over the
per-step LLM oracle outcomes, with any exception escaping a step caught
by the surrounding `try` and mapped to the single fallback result. -/
def analyze (kc : KnowledgeContext) (r1 : StepResp RequestAnalysis)
    (r2 : StepResp KnowledgeEvaluation) (r3 : StepResp KeyPoints)
    (r4 : StepResp ResponsePlan) : ReasoningResult :=
  let ra := analyze_request r1
  match evaluate_knowledge kc r2 with
  | .error _ => fallback_reasoning_result
  | .ok ke =>
    match extract_key_points kc ra r3 with
    | .error _ => fallback_reasoning_result
    | .ok kp =>
      let rp := plan_response kp ra r4
      { intent := ra.intent, domain := ra.domain,
        complexity := ra.complexity,
        knowledge_sufficiency := ke.sufficiency,
        key_points := kp.points,
        suggested_format := rp.format, tone := rp.tone,
        structure_ := rp.structure_ }

/-- C3: a chain step whose LLM response fails JSON parsing never aborts
`analyze` — the returned `ReasoningResult` carries that step's documented
defaults (step 1: intent "unknown", domain "general", complexity
"medium"; step 3: no key points; step 4: format "text", tone "neutral",
structure "default") whatever the other steps returned — and an uncaught
exception inside the chain (here the `TypeError` raised on a non-empty
`relevant_info`) makes `analyze` return the single documented fallback
result instead of propagating. -/
theorem c3_analyze_degrades :
    (∀ (kc : KnowledgeContext) (r2 : StepResp KnowledgeEvaluation)
      (r3 : StepResp KeyPoints) (r4 : StepResp ResponsePlan),
      (analyze kc .badJson r2 r3 r4).intent = "unknown" ∧
      (analyze kc .badJson r2 r3 r4).domain = "general" ∧
      (analyze kc .badJson r2 r3 r4).complexity = "medium") ∧
    (∀ (kc : KnowledgeContext) (r1 : StepResp RequestAnalysis)
      (r2 : StepResp KnowledgeEvaluation) (r4 : StepResp ResponsePlan),
      (analyze kc r1 r2 .badJson r4).key_points = []) ∧
    (∀ (kc : KnowledgeContext) (r1 : StepResp RequestAnalysis)
      (r2 : StepResp KnowledgeEvaluation) (r3 : StepResp KeyPoints),
      (analyze kc r1 r2 r3 .badJson).suggested_format = "text" ∧
      (analyze kc r1 r2 r3 .badJson).tone = "neutral" ∧
      (analyze kc r1 r2 r3 .badJson).structure_ = "default") ∧
    (∀ (kc : KnowledgeContext) (r1 : StepResp RequestAnalysis)
      (r2 : StepResp KnowledgeEvaluation) (r3 : StepResp KeyPoints)
      (r4 : StepResp ResponsePlan),
      kc.relevant_info ≠ [] →
      analyze kc r1 r2 r3 r4 = fallback_reasoning_result) := by
  refine ⟨?_, ?_, ?_, ?_⟩
  · intro kc r2 r3 r4
    by_cases h : kc.relevant_info.isEmpty <;>
      simp [analyze, evaluate_knowledge, extract_key_points, h,
        analyze_request, default_request_analysis, fallback_reasoning_result]
  · intro kc r1 r2 r4
    by_cases h : kc.relevant_info.isEmpty
    · cases r1 <;>
        simp [analyze, evaluate_knowledge, extract_key_points, h,
          default_key_points, fallback_reasoning_result]
    · simp [analyze, evaluate_knowledge, h, fallback_reasoning_result]
  · intro kc r1 r2 r3
    by_cases h : kc.relevant_info.isEmpty
    · cases r1 <;> cases r3 <;>
        simp [analyze, evaluate_knowledge, extract_key_points, h,
          plan_response, default_response_plan, fallback_reasoning_result]
    · simp [analyze, evaluate_knowledge, h, fallback_reasoning_result]
  · intro kc r1 r2 r3 r4 h
    have h' : kc.relevant_info.isEmpty = false := by
      simpa [List.isEmpty_iff] using h
    simp [analyze, evaluate_knowledge, h']

/-- C3 witness: with one stored knowledge entry (so the join raises) and
every step's response failing to parse, `analyze` returns the documented
fallback. -/
theorem c3_witness :
    analyze ⟨[⟨"MCP", 1, "vector_db"⟩], ["vector_db"], 1⟩
      .badJson .badJson .badJson .badJson = fallback_reasoning_result :=
  c3_analyze_degrades.2.2.2 ⟨[⟨"MCP", 1, "vector_db"⟩], ["vector_db"], 1⟩
    .badJson .badJson .badJson .badJson (by simp)

/-! ## Generation Stage (`app/protocols/generation.py`)

`ContentGenerationProtocol.generate` resolves sampling parameters from
the request context, the reasoning result, the knowledge context and an
optional caller-supplied `llm_config`, and performs a scoped credential
swap for a caller-supplied API key. -/

/-- A Python value stored in an options dict. -/
inductive Val where
  | null
  | str (s : String)
  | num (q : ℚ)
  | boolean (b : Bool)
  | strList (l : List String)
deriving DecidableEq

/-- `d[k] = v` on an insertion-ordered Python dict: replace in place, or
append a new key at the end. -/
def pyDictSet : List (String × Val) → String → Val → List (String × Val)
  | [], k, v => [(k, v)]
  | (k0, v0) :: rest, k, v =>
    if k0 = k then (k0, v) :: rest else (k0, v0) :: pyDictSet rest k v

/-- `d.update(u)`: set every key of `u` in order. -/
def pyDictUpdate (m u : List (String × Val)) : List (String × Val) :=
  u.foldl (fun acc kv => pyDictSet acc kv.1 kv.2) m

/-- `d.get(k)`: the stored value, `none` when the key is absent. -/
def pyDictGet : List (String × Val) → String → Option Val
  | [], _ => none
  | (k0, v0) :: rest, k => if k0 = k then some v0 else pyDictGet rest k

/-- The keys of the request context that `generate` and
`_prepare_generation_params` read (`none` = absent). -/
structure GenContext where
  format : Option String := none
  domain : Option String := none
  max_tokens : Option Int := none
  temperature : Option ℚ := none
  options : List (String × Val) := []
deriving DecidableEq

/-- The two reasoning-result keys `_prepare_generation_params` reads
(`none` = absent; the empty string is falsy and also ignored). -/
structure ReasoningHints where
  suggested_format : Option String := none
  tone : Option String := none
deriving DecidableEq

/-- The caller-supplied `llm_config` override (`none` fields = absent
keys). -/
structure LLMConfig where
  model : Option String := none
  max_tokens : Option Int := none
  temperature : Option ℚ := none
  options : List (String × Val) := []
deriving DecidableEq

/-- `_prepare_generation_params` (generation.py lines 117-144): context
defaults, then reasoning hints, then knowledge sources, then the
context's own options merged on top. -/
def prepare_generation_params (rr : ReasoningHints)
    (kc_sources : List String) (ctx : GenContext) : List (String × Val) :=
  let params : List (String × Val) := []
  let params := pyDictSet params "format" (Val.str (ctx.format.getD "text"))
  let params := pyDictSet params "domain"
    (match ctx.domain with | some d => Val.str d | none => Val.null)
  let params := match rr.suggested_format with
    | some f => if f = "" then params else pyDictSet params "format" (Val.str f)
    | none => params
  let params := match rr.tone with
    | some t => if t = "" then params else pyDictSet params "tone" (Val.str t)
    | none => params
  let params := if kc_sources.isEmpty then params
    else pyDictSet params "sources" (Val.strList kc_sources)
  let params := if ctx.options.isEmpty then params
    else pyDictUpdate params ctx.options
  params

/-- The sampling parameters `generate` hands to
`llm_service.generate_text`. -/
structure ResolvedGenerationParams where
  model : Option String
  max_tokens : Int
  temperature : ℚ
  options : List (String × Val)
deriving DecidableEq

/-- The parameter resolution of `generate` (generation.py lines 50-95):
context defaults for `max_tokens` (1000) and `temperature` (0.7), then
the caller override — its `max_tokens` only when truthy (non-zero), its
`temperature` whenever not `None`, its `options` merged key-wise on top
of the assembled options. -/
def resolve_generation_params (rr : ReasoningHints)
    (kc_sources : List String) (ctx : GenContext)
    (llm_config : Option LLMConfig) : ResolvedGenerationParams :=
  let generation_params := prepare_generation_params rr kc_sources ctx
  let max_tokens := ctx.max_tokens.getD 1000
  let temperature := ctx.temperature.getD (7/10)
  match llm_config with
  | none => ⟨none, max_tokens, temperature, generation_params⟩
  | some cfg =>
    let model := cfg.model
    let max_tokens := match cfg.max_tokens with
      | some m => if m = 0 then max_tokens else m
      | none => max_tokens
    let temperature := match cfg.temperature with
      | some t => t
      | none => temperature
    let options := if cfg.options.isEmpty then generation_params
      else pyDictUpdate generation_params cfg.options
    ⟨model, max_tokens, temperature, options⟩

/-! ### Dict lemmas -/

/-- Lookup after one assignment. -/
theorem pyDictGet_pyDictSet (m : List (String × Val)) (k : String)
    (v : Val) (k' : String) :
    pyDictGet (pyDictSet m k v) k' =
      if k = k' then some v else pyDictGet m k' := by
  induction m with
  | nil =>
    by_cases h : k = k' <;> simp [pyDictSet, pyDictGet, h]
  | cons p rest ih =>
    obtain ⟨k0, v0⟩ := p
    by_cases h0 : k0 = k
    · subst h0
      by_cases h : k0 = k' <;> simp [pyDictSet, pyDictGet, h]
    · by_cases h : k0 = k'
      · subst h
        have hkk : ¬ (k = k0) := fun hh => h0 hh.symm
        simp [pyDictSet, pyDictGet, h0, hkk]
      · simp [pyDictSet, pyDictGet, h0, h, ih]

/-- `update` leaves keys outside the update map unchanged. -/
theorem pyDictGet_pyDictUpdate_not_mem (u : List (String × Val)) :
    ∀ (m : List (String × Val)) (k : String), (∀ p ∈ u, p.1 ≠ k) →
      pyDictGet (pyDictUpdate m u) k = pyDictGet m k := by
  induction u with
  | nil => intro m k _; rfl
  | cons p u' ih =>
    intro m k hk
    obtain ⟨k0, v0⟩ := p
    have h0 : k0 ≠ k := hk (k0, v0) (List.mem_cons_self _ _)
    have := ih (pyDictSet m k0 v0) k fun q hq => hk q (List.mem_cons_of_mem _ hq)
    calc pyDictGet (pyDictUpdate m ((k0, v0) :: u')) k
        = pyDictGet (pyDictUpdate (pyDictSet m k0 v0) u') k := rfl
      _ = pyDictGet (pyDictSet m k0 v0) k := this
      _ = pyDictGet m k := by simp [pyDictGet_pyDictSet, h0]

/-- `update` installs every key of a duplicate-free update map. -/
theorem pyDictGet_pyDictUpdate_mem (u : List (String × Val)) :
    ∀ (m : List (String × Val)) (k : String) (v : Val),
      (u.map Prod.fst).Nodup → pyDictGet u k = some v →
      pyDictGet (pyDictUpdate m u) k = some v := by
  induction u with
  | nil => intro m k v _ h; cases h
  | cons p u' ih =>
    intro m k v hnd h
    obtain ⟨k0, v0⟩ := p
    have hnd2 : (k0 :: u'.map Prod.fst).Nodup := by simpa using hnd
    rcases List.nodup_cons.mp hnd2 with ⟨hk0, hnd'⟩
    by_cases h0 : k0 = k
    · subst h0
      have hv : v0 = v := by simpa [pyDictGet] using h
      have hout : ∀ q ∈ u', q.1 ≠ k0 := fun q hq hqk =>
        hk0 (hqk ▸ List.mem_map_of_mem Prod.fst hq)
      have h1 : pyDictGet (pyDictUpdate (pyDictSet m k0 v0) u') k0 =
          pyDictGet (pyDictSet m k0 v0) k0 :=
        pyDictGet_pyDictUpdate_not_mem u' _ _ hout
      have h2 : pyDictGet (pyDictSet m k0 v0) k0 = some v0 := by
        simp [pyDictGet_pyDictSet]
      show pyDictGet (pyDictUpdate (pyDictSet m k0 v0) u') k0 = some v
      rw [h1, h2, hv]
    · have h' : pyDictGet u' k = some v := by simpa [pyDictGet, h0] using h
      exact ih (pyDictSet m k0 v0) k v hnd' h'

/-- C4: in `generate`'s resolved parameters the caller override's
`temperature` wins over the context's, the context default 0.7 applies
only when the override has none, and the override's `options` are merged
key-wise onto the assembled options (untouched keys keep their assembled
values, override keys get the override's values); concretely, with
default temperature, reasoning tone hint "formal" and an override of
temperature 0.2 with an extra option `x = 1`, generation runs at 0.2 and
its options still carry tone "formal" next to `x = 1`. -/
theorem c4_generation_param_precedence :
    (∀ (rr : ReasoningHints) (srcs : List String) (ctx : GenContext)
      (cfg : LLMConfig) (t : ℚ), cfg.temperature = some t →
      (resolve_generation_params rr srcs ctx (some cfg)).temperature = t) ∧
    (∀ (rr : ReasoningHints) (srcs : List String) (ctx : GenContext)
      (cfg : LLMConfig), cfg.temperature = none →
      (resolve_generation_params rr srcs ctx (some cfg)).temperature =
        ctx.temperature.getD (7/10)) ∧
    (∀ (rr : ReasoningHints) (srcs : List String) (ctx : GenContext)
      (cfg : LLMConfig) (k : String), (∀ p ∈ cfg.options, p.1 ≠ k) →
      pyDictGet (resolve_generation_params rr srcs ctx (some cfg)).options k =
        pyDictGet (prepare_generation_params rr srcs ctx) k) ∧
    (∀ (rr : ReasoningHints) (srcs : List String) (ctx : GenContext)
      (cfg : LLMConfig) (k : String) (v : Val),
      (cfg.options.map Prod.fst).Nodup → pyDictGet cfg.options k = some v →
      pyDictGet (resolve_generation_params rr srcs ctx (some cfg)).options k =
        some v) ∧
    ((resolve_generation_params ⟨none, some "formal"⟩ [] {}
        (some ⟨none, none, some (1/5), [("x", Val.num 1)]⟩)).temperature = 1/5 ∧
      pyDictGet (resolve_generation_params ⟨none, some "formal"⟩ [] {}
        (some ⟨none, none, some (1/5), [("x", Val.num 1)]⟩)).options "tone" =
        some (Val.str "formal") ∧
      pyDictGet (resolve_generation_params ⟨none, some "formal"⟩ [] {}
        (some ⟨none, none, some (1/5), [("x", Val.num 1)]⟩)).options "x" =
        some (Val.num 1)) := by
  refine ⟨?_, ?_, ?_, ?_, ?_, ?_, ?_⟩
  · intro rr srcs ctx cfg t ht
    simp [resolve_generation_params, ht]
  · intro rr srcs ctx cfg ht
    simp [resolve_generation_params, ht]
  · intro rr srcs ctx cfg k hk
    by_cases h : cfg.options.isEmpty
    · simp [resolve_generation_params, h]
    · simp only [resolve_generation_params, h, if_false, Bool.false_eq_true]
      exact pyDictGet_pyDictUpdate_not_mem cfg.options _ k hk
  · intro rr srcs ctx cfg k v hnd hget
    have h : cfg.options.isEmpty = false := by
      cases ho : cfg.options with
      | nil => rw [ho] at hget; cases hget
      | cons a l => simp [ho]
    simp only [resolve_generation_params, h, if_false, Bool.false_eq_true]
    exact pyDictGet_pyDictUpdate_mem cfg.options _ k v hnd hget
  · rfl
  · rfl
  · rfl

/-- C4 witness: the override's temperature wins at the scenario's
concrete inputs. -/
theorem c4_witness :
    (resolve_generation_params ⟨none, some "formal"⟩ [] {}
      (some ⟨none, none, some (1/5), [("x", Val.num 1)]⟩)).temperature = 1/5 :=
  c4_generation_param_precedence.1 ⟨none, some "formal"⟩ [] {}
    ⟨none, none, some (1/5), [("x", Val.num 1)]⟩ (1/5) rfl

/-! ### The scoped credential swap of `generate` (C5) -/

/-- The credential resolution of `LLMService.__init__` (llm.py lines
16-26): `api_key or getattr(settings, "LLM_API_KEY", "sk-test")`.  The
`Settings` model (core/config.py) declares no `LLM_API_KEY` attribute, so
the `getattr` default "sk-test" always applies; an empty caller string is
falsy and falls through to it. -/
def llm_service_api_key (api_key : Option String) : String :=
  match api_key with
  | some k => if k = "" then "sk-test" else k
  | none => "sk-test"

/-- The credential swap of `generate` (generation.py lines 76-99) as a
state transition on the shared `self.llm_service.api_key` field: back up
the stored key when the caller passed a truthy one, swap in the caller's
key, run the LLM call (which may raise — `generate` re-raises at line
115), and restore the backup in the `finally` block, which only fires
when the backed-up key is truthy.  Returns (call outcome, the field's
final value). -/
def generate_api_key_state (stored : String) (api_key : Option String)
    (llm : StepResp String) : Except Unit String × String :=
  let outcome : Except Unit String := match llm with
    | .ok t => .ok t
    | _ => .error ()
  match api_key with
  | some k =>
    if k = "" then (outcome, stored)
    else
      let original_api_key := stored
      let swapped := k
      (outcome, if original_api_key = "" then swapped else original_api_key)
  | none => (outcome, stored)

/-- C5: the stored service credential is never the empty string (the
`__init__` resolution always yields a non-empty key), and for every such
stored key, whatever per-call override the caller passes and whether the
backend call returns or raises, the shared `api_key` field holds the same
value after `generate`'s swap/restore as before it. -/
theorem c5_api_key_restored :
    (∀ (o : Option String), llm_service_api_key o ≠ "") ∧
    (∀ (stored : String) (api_key : Option String) (llm : StepResp String),
      stored ≠ "" →
      (generate_api_key_state stored api_key llm).2 = stored) := by
  constructor
  · intro o
    match o with
    | none => simp [llm_service_api_key]
    | some k =>
      by_cases h : k = "" <;> simp [llm_service_api_key, h]
  · intro stored api_key llm h
    match api_key with
    | none => rfl
    | some k =>
      by_cases hk : k = "" <;> simp [generate_api_key_state, hk, h]

/-- C5 witness: the default stored key "sk-test" survives a failing call
under the override "client-key". -/
theorem c5_witness :
    (generate_api_key_state "sk-test" (some "client-key") .llmFail).2 =
      "sk-test" :=
  c5_api_key_restored.2 "sk-test" (some "client-key") .llmFail (by decide)

/-! ## Generation Backend Adapter (`app/services/llm.py`)

`LLMService._extract_generated_text` probes the parsed response object
for the generated text.  A response is modelled by the fields the method
probes; the `json.dumps` fallback serializes the present fields. -/

/-- A lowercase hex digit. -/
def hexDigitChar (n : Nat) : Char :=
  if n < 10 then Char.ofNat (48 + n) else Char.ofNat (87 + n)

/-- Four lowercase hex digits, as Python's `\uXXXX` escapes print them. -/
def hex4 (n : Nat) : String :=
  String.mk [hexDigitChar (n / 4096 % 16), hexDigitChar (n / 256 % 16),
    hexDigitChar (n / 16 % 16), hexDigitChar (n % 16)]

/-- Python `json.dumps`'s `\uXXXX` escape for a code point, with a
surrogate pair beyond the basic plane. -/
def pyJsonUnicodeEscape (n : Nat) : String :=
  if n ≤ 65535 then "\\u" ++ hex4 n
  else
    let m := n - 65536
    "\\u" ++ hex4 (55296 + m / 1024) ++ "\\u" ++ hex4 (56320 + m % 1024)

/-- Python `json.dumps`'s escaping of one character (`ensure_ascii`
default: everything outside space..tilde is escaped). -/
def pyJsonEscapeChar (c : Char) : String :=
  if c = '"' then "\\\""
  else if c = '\\' then "\\\\"
  else if c = '\n' then "\\n"
  else if c = '\r' then "\\r"
  else if c = '\t' then "\\t"
  else if c.toNat = 8 then "\\b"
  else if c.toNat = 12 then "\\f"
  else if c.toNat < 32 || 126 < c.toNat then pyJsonUnicodeEscape c.toNat
  else String.singleton c

/-- Python `json.dumps` of a string. -/
def pyJsonStr (s : String) : String :=
  "\"" ++ String.join (s.data.map pyJsonEscapeChar) ++ "\""

/-- A JSON value (numbers keep their source lexeme). -/
inductive JVal where
  | null
  | boolean (b : Bool)
  | num (raw : String)
  | str (s : String)
  | arr (items : List JVal)
  | obj (fields : List (String × JVal))

mutual

/-- Python `json.dumps` of a value, with the default separators
`", "` and `": "`. -/
def dumpsJVal : JVal → String
  | .null => "null"
  | .boolean b => if b then "true" else "false"
  | .num raw => raw
  | .str s => pyJsonStr s
  | .arr items => "[" ++ dumpsJArr items ++ "]"
  | .obj fields => "\x7b" ++ dumpsJObj fields ++ "\x7d"

/-- The comma-joined items of a dumped array. -/
def dumpsJArr : List JVal → String
  | [] => ""
  | [v] => dumpsJVal v
  | v :: rest => dumpsJVal v ++ ", " ++ dumpsJArr rest

/-- The comma-joined `"key": value` pairs of a dumped object. -/
def dumpsJObj : List (String × JVal) → String
  | [] => ""
  | [(k, v)] => pyJsonStr k ++ ": " ++ dumpsJVal v
  | (k, v) :: rest => pyJsonStr k ++ ": " ++ dumpsJVal v ++ ", " ++ dumpsJObj rest

end

/-- One element of the response's `choices` array, carrying the two
fields `_extract_generated_text` probes in it (`message.content` present
only when both `message` and its `content` key exist). -/
structure LLMChoice where
  message_content : Option String := none
  text : Option String := none
deriving DecidableEq

/-- A parsed backend response, by the fields `_extract_generated_text`
probes (`none` = key absent). -/
structure LLMResult where
  choices : List LLMChoice := []
  completion : Option String := none
  text : Option String := none
  generated_text : Option String := none
  output : Option String := none
deriving DecidableEq

/-- The probed fields of a choice, as a JSON object. -/
def llmChoiceToJVal (c : LLMChoice) : JVal :=
  .obj ((match c.message_content with
    | some t => [("message", JVal.obj [("content", JVal.str t)])]
    | none => []) ++
    (match c.text with
    | some t => [("text", JVal.str t)]
    | none => []))

/-- The response as a JSON object over its present fields (in the probe
order, standing in for the original dict's key order). -/
def llmResultToJVal (r : LLMResult) : JVal :=
  .obj ((if r.choices.isEmpty then []
      else [("choices", JVal.arr (r.choices.map llmChoiceToJVal))]) ++
    (match r.completion with
      | some t => [("completion", JVal.str t)] | none => []) ++
    (match r.text with
      | some t => [("text", JVal.str t)] | none => []) ++
    (match r.generated_text with
      | some t => [("generated_text", JVal.str t)] | none => []) ++
    (match r.output with
      | some t => [("output", JVal.str t)] | none => []))

/-- The `json.dumps(result)` fallback of `_extract_generated_text`
(llm.py line 150). -/
def dumps_llm_result (r : LLMResult) : String :=
  dumpsJVal (llmResultToJVal r)

/-- Case-insensitive Python `pat in model.lower()`. -/
def pyContainsCI (s pat : String) : Bool :=
  pyContains (pyLower s) pat

/-- The model-independent tail of `_extract_generated_text` (llm.py lines
141-150): `text`, then `generated_text`, then `output`, then the dumped
response. -/
def generic_extract (r : LLMResult) : String :=
  match r.text with
  | some t => t
  | none =>
    match r.generated_text with
    | some t => t
    | none =>
      match r.output with
      | some t => t
      | none => dumps_llm_result r

/-- `_extract_generated_text(result, model)` (llm.py lines 126-150): an
OpenAI/GPT model name probes the chat-completion paths, an
Anthropic/Claude name probes `completion`, and any un-returned case falls
through to the generic tail. -/
def extract_generated_text (result : LLMResult) (model : String) : String :=
  if pyContainsCI model "openai" || pyContainsCI model "gpt" then
    match result.choices with
    | c :: _ =>
      (match c.message_content with
        | some t => t
        | none =>
          match c.text with
          | some t => t
          | none => generic_extract result)
    | [] => generic_extract result
  else if pyContainsCI model "anthropic" || pyContainsCI model "claude" then
    match result.completion with
    | some t => t
    | none => generic_extract result
  else generic_extract result

/-- The extraction the claim describes: one fixed probe order — chat
message content, completion, `text`, `generated_text`, `output`, dumped
response — applied whatever model was requested. -/
def spec_fixed_order_extract (r : LLMResult) : String :=
  match r.choices.head?.bind (·.message_content) with
  | some t => t
  | none =>
    match r.completion with
    | some t => t
    | none =>
      match r.text with
      | some t => t
      | none =>
        match r.generated_text with
        | some t => t
        | none =>
          match r.output with
          | some t => t
          | none => dumps_llm_result r

/-- C9 counterexample: on the response `{"completion": "Y", "text": "Z"}`
the fixed-order extraction of the claim yields "Y", but the code yields
"Z" for the model "gpt-3.5-turbo" and "Y" for the model "claude-2" — the
probe order depends on the requested model, so the claim's
model-independence is false. -/
theorem c9_counterexample :
    spec_fixed_order_extract ⟨[], some "Y", some "Z", none, none⟩ = "Y" ∧
    extract_generated_text ⟨[], some "Y", some "Z", none, none⟩
      "gpt-3.5-turbo" = "Z" ∧
    extract_generated_text ⟨[], some "Y", some "Z", none, none⟩
      "claude-2" = "Y" ∧
    extract_generated_text ⟨[], some "Y", some "Z", none, none⟩
      "gpt-3.5-turbo" ≠
      spec_fixed_order_extract ⟨[], some "Y", some "Z", none, none⟩ := by
  refine ⟨rfl, ?_, ?_, ?_⟩ <;> decide

/-- C9 (amended): the probe order is model-dependent — an OpenAI/GPT
model name probes the first choice's chat message content (then its
`text`); an Anthropic/Claude name probes `completion`; a GPT-family
request without a `choices` entry skips `completion` entirely and any
other model skips both family-specific paths; every un-returned case
falls to the fixed generic tail `text`, `generated_text`, `output`, and
finally the JSON serialization of the whole response. -/
theorem c9_extract_model_dependent_order :
    (∀ (r : LLMResult) (model : String) (c : LLMChoice) (cs : List LLMChoice)
      (t : String),
      (pyContainsCI model "openai" || pyContainsCI model "gpt") = true →
      r.choices = c :: cs → c.message_content = some t →
      extract_generated_text r model = t) ∧
    (∀ (r : LLMResult) (model : String),
      (pyContainsCI model "openai" || pyContainsCI model "gpt") = true →
      r.choices = [] → extract_generated_text r model = generic_extract r) ∧
    (∀ (r : LLMResult) (model : String) (t : String),
      (pyContainsCI model "openai" || pyContainsCI model "gpt") = false →
      (pyContainsCI model "anthropic" || pyContainsCI model "claude") = true →
      r.completion = some t → extract_generated_text r model = t) ∧
    (∀ (r : LLMResult) (model : String),
      (pyContainsCI model "openai" || pyContainsCI model "gpt") = false →
      (pyContainsCI model "anthropic" || pyContainsCI model "claude") = false →
      extract_generated_text r model = generic_extract r) ∧
    (∀ (r : LLMResult) (t : String), r.text = some t →
      generic_extract r = t) ∧
    (∀ (r : LLMResult) (t : String), r.text = none →
      r.generated_text = some t → generic_extract r = t) ∧
    (∀ (r : LLMResult) (t : String), r.text = none →
      r.generated_text = none → r.output = some t → generic_extract r = t) ∧
    (∀ (r : LLMResult), r.text = none → r.generated_text = none →
      r.output = none → generic_extract r = dumps_llm_result r) := by
  refine ⟨?_, ?_, ?_, ?_, ?_, ?_, ?_, ?_⟩
  · intro r model c cs t hm hc hmc
    simp [extract_generated_text, hm, hc, hmc]
  · intro r model hm hc
    simp [extract_generated_text, hm, hc]
  · intro r model t hm1 hm2 hc
    simp [extract_generated_text, hm1, hm2, hc]
  · intro r model hm1 hm2
    simp [extract_generated_text, hm1, hm2]
  · intro r t h
    simp [generic_extract, h]
  · intro r t h1 h2
    simp [generic_extract, h1, h2]
  · intro r t h1 h2 h3
    simp [generic_extract, h1, h2, h3]
  · intro r h1 h2 h3
    simp [generic_extract, h1, h2, h3]

/-- C9 witness: a GPT-family request extracts the chat message content of
the first choice. -/
theorem c9_witness :
    extract_generated_text ⟨[⟨some "A", none⟩], none, none, none, none⟩
      "gpt-4" = "A" :=
  c9_extract_model_dependent_order.1
    ⟨[⟨some "A", none⟩], none, none, none, none⟩ "gpt-4"
    ⟨some "A", none⟩ [] "A" (by decide) rfl rfl

/-! ## Formatting Stage (`app/protocols/communication.py`)

`CommunicationProtocol.format_response` dispatches on the requested
output format.  Every `_format_as_*` helper's LLM rewrite reads the
local name `llm_service`, which is never defined in those method scopes
(`format_response` binds its own local at line 52 but does not pass it
down), so each rewrite raises `NameError` inside its `try` block and the
helper's documented fallback always runs.

The JSON-citation branch calls `json.loads`; a small JSON reader models
it (astral-plane `\u` surrogate pairs are outside the modelled
fragment, which nothing in the repository produces). -/

/-- The `{` character (written by code point). -/
def lbrace : Char := Char.ofNat 123

/-- The `}` character (written by code point). -/
def rbrace : Char := Char.ofNat 125

/-- JSON whitespace. -/
def isJsonWs (c : Char) : Bool :=
  c = ' ' || c = '\t' || c = '\n' || c = '\r'

/-- Drop leading JSON whitespace. -/
def skipJsonWs : List Char → List Char
  | [] => []
  | c :: rest => if isJsonWs c then skipJsonWs rest else c :: rest

/-- The value of a hex digit. -/
def hexVal (c : Char) : Option Nat :=
  if '0' ≤ c ∧ c ≤ '9' then some (c.toNat - 48)
  else if 'a' ≤ c ∧ c ≤ 'f' then some (c.toNat - 87)
  else if 'A' ≤ c ∧ c ≤ 'F' then some (c.toNat - 55)
  else none

/-- Read a JSON string body after the opening quote; `acc` is reversed. -/
def parseJsonStringAux : Nat → List Char → List Char → Option (String × List Char)
  | 0, _, _ => none
  | _ + 1, [], _ => none
  | fuel + 1, c :: rest, acc =>
    if c = '"' then some (String.mk acc.reverse, rest)
    else if c = '\\' then
      match rest with
      | [] => none
      | e :: rest2 =>
        if e = '"' then parseJsonStringAux fuel rest2 ('"' :: acc)
        else if e = '\\' then parseJsonStringAux fuel rest2 ('\\' :: acc)
        else if e = '/' then parseJsonStringAux fuel rest2 ('/' :: acc)
        else if e = 'b' then parseJsonStringAux fuel rest2 (Char.ofNat 8 :: acc)
        else if e = 'f' then parseJsonStringAux fuel rest2 (Char.ofNat 12 :: acc)
        else if e = 'n' then parseJsonStringAux fuel rest2 ('\n' :: acc)
        else if e = 'r' then parseJsonStringAux fuel rest2 ('\r' :: acc)
        else if e = 't' then parseJsonStringAux fuel rest2 ('\t' :: acc)
        else if e = 'u' then
          match rest2 with
          | h1 :: h2 :: h3 :: h4 :: rest3 =>
            match hexVal h1, hexVal h2, hexVal h3, hexVal h4 with
            | some a, some b, some c2, some d =>
              parseJsonStringAux fuel rest3
                (Char.ofNat (((a * 16 + b) * 16 + c2) * 16 + d) :: acc)
            | _, _, _, _ => none
          | _ => none
        else none
    else parseJsonStringAux fuel rest (c :: acc)

/-- Leading decimal digits and the remainder. -/
def takeDigits : List Char → List Char × List Char
  | [] => ([], [])
  | c :: rest =>
    if c.isDigit then
      let (d, r) := takeDigits rest
      (c :: d, r)
    else ([], c :: rest)

/-- Read a JSON number lexeme (the grammar `json.loads` accepts):
optional sign, integer part without leading zeros, optional fraction,
optional exponent. -/
def parseJsonNumber (cs : List Char) : Option (String × List Char) :=
  let (sign, cs1) := match cs with
    | '-' :: r => (['-'], r)
    | _ => (([] : List Char), cs)
  match cs1 with
  | [] => none
  | c :: rest =>
    if c = '0' ∨ (c.isDigit ∧ c ≠ '0') then
      let (intTail, cs2) := if c = '0' then ([], rest) else takeDigits rest
      let intPart := c :: intTail
      let fracResult : Option (List Char × List Char) := match cs2 with
        | '.' :: r =>
          match takeDigits r with
          | ([], _) => none
          | (d, r2) => some ('.' :: d, r2)
        | _ => some ([], cs2)
      match fracResult with
      | none => none
      | some (fracPart, cs3) =>
        let (expPart, cs4) := match cs3 with
          | e :: r =>
            if e = 'e' ∨ e = 'E' then
              match r with
              | s :: r2 =>
                if s = '+' ∨ s = '-' then
                  match takeDigits r2 with
                  | ([], _) => ([], cs3)
                  | (d, r3) => (e :: s :: d, r3)
                else
                  match takeDigits r with
                  | ([], _) => ([], cs3)
                  | (d, r3) => (e :: d, r3)
              | [] => ([], cs3)
            else ([], cs3)
          | [] => ([], cs3)
        some (String.mk (sign ++ intPart ++ fracPart ++ expPart), cs4)
    else none

mutual

/-- Read one JSON value (fuel-bounded nesting). -/
def parseJsonValue : Nat → List Char → Option (JVal × List Char)
  | 0, _ => none
  | fuel + 1, cs =>
    match skipJsonWs cs with
    | [] => none
    | c :: rest =>
      if c = lbrace then
        match skipJsonWs rest with
        | c2 :: rest2 =>
          if c2 = rbrace then some (.obj [], rest2)
          else parseJsonObjItems fuel (c2 :: rest2) []
        | [] => none
      else if c = '[' then
        match skipJsonWs rest with
        | ']' :: rest2 => some (.arr [], rest2)
        | cs2 => parseJsonArrItems fuel cs2 []
      else if c = '"' then
        (parseJsonStringAux (rest.length + 1) rest []).map
          fun p => (JVal.str p.1, p.2)
      else if c = 't' then
        match rest with
        | 'r' :: 'u' :: 'e' :: r => some (.boolean true, r)
        | _ => none
      else if c = 'f' then
        match rest with
        | 'a' :: 'l' :: 's' :: 'e' :: r => some (.boolean false, r)
        | _ => none
      else if c = 'n' then
        match rest with
        | 'u' :: 'l' :: 'l' :: r => some (.null, r)
        | _ => none
      else
        (parseJsonNumber (c :: rest)).map fun p => (JVal.num p.1, p.2)

/-- Read the comma-separated items of a non-empty array (the `[` is
consumed); `acc` is reversed. -/
def parseJsonArrItems : Nat → List Char → List JVal → Option (JVal × List Char)
  | 0, _, _ => none
  | fuel + 1, cs, acc =>
    match parseJsonValue fuel cs with
    | none => none
    | some (v, r) =>
      match skipJsonWs r with
      | ',' :: r2 => parseJsonArrItems fuel r2 (v :: acc)
      | ']' :: r2 => some (.arr (v :: acc).reverse, r2)
      | _ => none

/-- Read the comma-separated members of a non-empty object (the `{` is
consumed); `acc` is reversed. -/
def parseJsonObjItems : Nat → List Char → List (String × JVal) →
    Option (JVal × List Char)
  | 0, _, _ => none
  | fuel + 1, cs, acc =>
    match skipJsonWs cs with
    | '"' :: rest =>
      match parseJsonStringAux (rest.length + 1) rest [] with
      | none => none
      | some (k, r) =>
        match skipJsonWs r with
        | ':' :: r2 =>
          match parseJsonValue fuel r2 with
          | none => none
          | some (v, r3) =>
            match skipJsonWs r3 with
            | ',' :: r4 => parseJsonObjItems fuel r4 ((k, v) :: acc)
            | c :: r4 =>
              if c = rbrace then some (.obj ((k, v) :: acc).reverse, r4)
              else none
            | [] => none
        | _ => none
    | _ => none

end

/-- Python `json.loads`: one value, then only trailing whitespace. -/
def pyJsonLoads (s : String) : Option JVal :=
  match parseJsonValue (s.data.length + 1) s.data with
  | some (v, rest) => if (skipJsonWs rest).isEmpty then some v else none
  | none => none

/-- `d[k] = v` on a parsed JSON object (insertion-ordered). -/
def pyDictSetJ : List (String × JVal) → String → JVal → List (String × JVal)
  | [], k, v => [(k, v)]
  | (k0, v0) :: rest, k, v =>
    if k0 = k then (k0, v) :: rest else (k0, v0) :: pyDictSetJ rest k v

/-- The request-context keys `format_response` and its helpers read. -/
structure CommContext where
  format : Option String := none
  tone : Option String := none
  add_citations : Bool := false
  sources : List String := []
  code_language : Option String := none
deriving DecidableEq

/-- The flush-at-three sentence grouping of `_format_as_text`
(communication.py lines 94-103). -/
def chunk3 : List String → List (List String)
  | a :: b :: c :: rest => [a, b, c] :: chunk3 rest
  | [] => []
  | rest => [rest]

/-- `_format_as_text` (communication.py lines 85-124): reflow into
three-sentence paragraphs when the content has no blank-line breaks; the
conversational-tone LLM rewrite reads the undefined `llm_service`, and
its `NameError` is swallowed by the inner `except`, leaving the content
unchanged. -/
def format_as_text (content : String) (_ctx : CommContext) : String :=
  if pyContains content "\n\n" then content
  else
    let sentences := pySplit content ". "
    let paragraphs := (chunk3 sentences).map fun p => pyJoin ". " p ++ "."
    pyJoin "\n\n" paragraphs

/-- `_format_as_markdown` (communication.py lines 126-153): the LLM
rewrite raises `NameError` (undefined `llm_service`) inside the `try`, so
the heuristic fallback always runs — first line becomes a `#` heading,
then every line is followed by an empty line and the result is
newline-joined. -/
def format_as_markdown (content : String) (_llm : StepResp String) : String :=
  let lines := pySplit content "\n"
  let lines := match lines with
    | [] => []
    | l :: ls => ("# " ++ l) :: ls
  let formatted_lines := lines.foldr (fun l acc => l :: "" :: acc) []
  pyJoin "\n" formatted_lines

/-- `_format_as_json` (communication.py lines 155-176): the LLM rewrite
raises `NameError`, so the fallback `json.dumps({"content": content})`
always runs. -/
def format_as_json (content : String) : String :=
  "\x7b\"content\": " ++ pyJsonStr content ++ "\x7d"

/-- `_format_as_code` (communication.py lines 178-196): the LLM rewrite
raises `NameError`, so the fallback fences the raw content in a
language-tagged block. -/
def format_as_code (content : String) (ctx : CommContext) : String :=
  let language := ctx.code_language.getD "python"
  "```" ++ language ++ "\n" ++ content ++ "\n```"

/-- `_format_as_table` (communication.py lines 198-214): the LLM rewrite
raises `NameError`, so the raw content is returned. -/
def format_as_table (content : String) : String := content

/-- The numbered source list of `_add_citations` (communication.py line
222). -/
def enumerate_sources (sources : List String) : String :=
  pyJoin "\n" (sources.enum.map fun p => toString (p.1 + 1) ++ ". " ++ p.2)

/-- `_add_citations` (communication.py lines 216-239): format-aware
citation appending; the JSON branch parses the content and merges a
`sources` array into a parsed object, with the bare `except` falling back
to the textual block when the parse fails (or when the parsed value is
not an object, where the subscript assignment raises `TypeError`). -/
def add_citations (content : String) (sources : List String)
    (output_format : String) : String :=
  if sources.isEmpty then content
  else
    let sources_text := enumerate_sources sources
    if output_format = "markdown" then
      content ++ "\n\n---\n\n**출처:**\n" ++ sources_text
    else if output_format = "json" then
      match pyJsonLoads content with
      | some (JVal.obj fields) =>
        dumpsJVal (JVal.obj
          (pyDictSetJ fields "sources" (JVal.arr (sources.map JVal.str))))
      | _ => content ++ "\n\n출처:\n" ++ sources_text
    else
      content ++ "\n\n출처:\n" ++ sources_text

/-- `format_response` (communication.py lines 30-83): dispatch on the
`format` key (default "text"), append citations when requested, and let
the outer `except` return the original content when anything inside the
method raises (`internal_error` injects such an exception). -/
def format_response (content : String) (_prompt : String)
    (ctx : CommContext) (llm : StepResp String)
    (internal_error : Bool) : String :=
  if internal_error then content
  else
    let output_format := ctx.format.getD "text"
    let formatted :=
      if output_format = "json" then format_as_json content
      else if output_format = "markdown" then format_as_markdown content llm
      else if output_format = "code" then format_as_code content ctx
      else if output_format = "table" then format_as_table content
      else format_as_text content ctx
    if ctx.add_citations && !ctx.sources.isEmpty then
      add_citations formatted ctx.sources output_format
    else formatted

/-- The markdown heuristic as the spec words it: the first line of the
content becomes a heading and the remaining lines are separated by blank
lines (with the trailing newline the line-wise rebuild produces). -/
def spec_markdown_fallback (content : String) : String :=
  match pySplit content "\n" with
  | [] => ""
  | l :: ls => pyJoin "\n\n" (("# " ++ l) :: ls) ++ "\n"

/-- The split worker never returns an empty field list. -/
theorem pySplitAux_ne_nil (sep : List Char) :
    ∀ (fuel : Nat) (cs cur : List Char), pySplitAux sep fuel cs cur ≠ [] := by
  intro fuel
  induction fuel with
  | zero => intro cs cur; simp [pySplitAux]
  | succ n ih =>
    intro cs cur
    match cs with
    | [] => simp [pySplitAux]
    | c :: rest =>
      by_cases h : sep.isPrefixOf (c :: rest)
      · simp [pySplitAux, h]
      · simpa [pySplitAux, h] using ih rest (c :: cur)

/-- `pySplit` never returns an empty field list. -/
theorem pySplit_ne_nil (s sep : String) : pySplit s sep ≠ [] := by
  unfold pySplit
  by_cases h : sep.data = []
  · simp [h]
  · simpa [h] using pySplitAux_ne_nil sep.data (s.data.length + 1) s.data []

/-- Newline-joining lines interleaved with empty lines equals
blank-line-joining the lines, plus a trailing newline. -/
theorem pyJoin_interleave :
    ∀ (ls : List String) (l : String),
      pyJoin "\n" (List.foldr (fun x acc => x :: "" :: acc) [] (l :: ls)) =
        pyJoin "\n\n" (l :: ls) ++ "\n"
  | [], l => by
    simp [pyJoin, String.append_empty, String.append_assoc]
  | x :: t, l => by
    have ih := pyJoin_interleave t x
    have hnn : ("\n" : String) ++ "\n" = "\n\n" := rfl
    simp only [List.foldr_cons] at ih ⊢
    calc pyJoin "\n"
          (l :: "" :: x :: "" :: List.foldr (fun y acc => y :: "" :: acc) [] t)
        = l ++ "\n" ++ ("" ++ "\n" ++ pyJoin "\n"
            (x :: "" :: List.foldr (fun y acc => y :: "" :: acc) [] t)) := by
          cases List.foldr (fun y acc => y :: "" :: acc) ([] : List String) t <;>
            simp [pyJoin, String.append_assoc]
      _ = l ++ "\n" ++ ("" ++ "\n" ++ (pyJoin "\n\n" (x :: t) ++ "\n")) := by
          rw [ih]
      _ = pyJoin "\n\n" (l :: x :: t) ++ "\n" := by
          have hstep : ("\n" : String) ++
              ("\n" ++ (pyJoin "\n\n" (x :: t) ++ "\n")) =
              "\n\n" ++ (pyJoin "\n\n" (x :: t) ++ "\n") := by
            rw [← String.append_assoc, hnn]
          simp only [pyJoin, String.append_assoc, String.empty_append]
          rw [hstep]

/-- The embedded markdown helper computes exactly the spec's heuristic. -/
theorem format_as_markdown_eq_spec (content : String) (llm : StepResp String) :
    format_as_markdown content llm = spec_markdown_fallback content := by
  unfold format_as_markdown spec_markdown_fallback
  cases h : pySplit content "\n" with
  | nil => exact absurd h (pySplit_ne_nil content "\n")
  | cons l ls => simpa using pyJoin_interleave ls ("# " ++ l)

/-- C6: `format_response` never raises — an exception inside the method
is caught and the original content returned unchanged — and with
`format = "markdown"` and an unavailable LLM backend (its call failing),
the heuristic fallback is returned: the first line of the content becomes
a markdown heading and the remaining lines are separated by blank
lines. -/
theorem c6_format_response_fallbacks :
    (∀ (content prompt : String) (ctx : CommContext) (llm : StepResp String),
      format_response content prompt ctx llm true = content) ∧
    (∀ (content prompt : String) (ctx : CommContext),
      ctx.format = some "markdown" → ctx.add_citations = false →
      format_response content prompt ctx .llmFail false =
        spec_markdown_fallback content) := by
  constructor
  · intro content prompt ctx llm
    rfl
  · intro content prompt ctx hfmt hcit
    simp only [format_response, hfmt, hcit, Option.getD_some, if_false,
      Bool.false_and, Bool.false_eq_true]
    norm_num
    exact format_as_markdown_eq_spec content .llmFail

/-- C6 witness: formatting a two-line content as markdown with a failing
LLM backend yields the heuristic fallback. -/
theorem c6_witness :
    format_response "Title\nBody" "" ⟨some "markdown", none, false, [], none⟩
      .llmFail false = spec_markdown_fallback "Title\nBody" :=
  c6_format_response_fallbacks.2 "Title\nBody" ""
    ⟨some "markdown", none, false, [], none⟩ rfl rfl

/-! ## Learning/Feedback Stage (`app/protocols/learning.py`)

The database-backed `AdaptiveLearningProtocol` of learning.py (the one
the feedback API and chat pipeline import): feedback storage, rating
analysis and the running learning-metrics aggregate.  The stored
record's clock-valued `timestamp` and free-form `metadata` are not
modelled (no claim constrains them). -/

/-- The feedback record `store_feedback` inserts (learning.py lines
138-151), field for field as submitted. -/
structure StoredFeedback where
  feedback_id : Option String
  request_id : Option String
  session_id : Option String := none
  user_id : Option String := none
  rating : Option Int := none
  feedback_type : Option String := none
  comment : Option String := none
deriving DecidableEq

/-- `store_feedback` (learning.py lines 126-156): the inserted record
carries the rating exactly as submitted — nothing clamps it on this
path. -/
def store_feedback_record (feedback_id request_id session_id user_id :
    Option String) (rating : Option Int)
    (feedback_type comment : Option String) : StoredFeedback :=
  { feedback_id := feedback_id, request_id := request_id,
    session_id := session_id, user_id := user_id, rating := rating,
    feedback_type := feedback_type, comment := comment }

/-- The analysis record `_analyze_feedback` builds (learning.py lines
218-222). -/
structure FeedbackAnalysis where
  sentiment : String
  improvement_areas : List String
  strengths : List String
deriving DecidableEq

/-- The fixed negative-keyword list (learning.py line 258). -/
def negative_keywords : List String :=
  ["오류", "잘못", "부정확", "이해하기 어려움", "불완전", "관련 없음"]

/-- The fixed positive-keyword list (learning.py line 265). -/
def positive_keywords : List String :=
  ["좋음", "정확", "명확", "유용", "도움", "완벽"]

/-- The rating-based sentiment cutoffs (learning.py lines 225-229). -/
def rating_sentiment_learning (rating : Int) : String :=
  if rating ≥ 4 then "positive"
  else if rating ≤ 2 then "negative"
  else "neutral"

/-- `_analyze_feedback` (learning.py lines 215-279): sentiment from the
raw rating (`.get("rating", 0)`), feedback-type-specific tags at the ≤3
cutoff, and one comment tag per keyword list (first match wins). -/
def learning_analyze_feedback (rating : Option Int)
    (feedback_type comment : Option String) : FeedbackAnalysis :=
  let rating := rating.getD 0
  let sentiment := rating_sentiment_learning rating
  let ft := feedback_type.getD ""
  let (improvement_areas, strengths) :=
    if ft = "accuracy" then
      if rating ≤ 3 then (["정확성 향상 필요"], ([] : List String))
      else ([], ["높은 정확성"])
    else if ft = "relevance" then
      if rating ≤ 3 then (["관련성 향상 필요"], []) else ([], ["높은 관련성"])
    else if ft = "clarity" then
      if rating ≤ 3 then (["명확성 향상 필요"], []) else ([], ["높은 명확성"])
    else if ft = "completeness" then
      if rating ≤ 3 then (["완전성 향상 필요"], []) else ([], ["높은 완전성"])
    else ([], [])
  let comment := comment.getD ""
  let improvement_areas :=
    if comment != "" && (negative_keywords.any fun kw => pyContains comment kw)
        && !(improvement_areas.contains "개선 필요") then
      improvement_areas ++ ["개선 필요"]
    else improvement_areas
  let strengths :=
    if comment != "" && (positive_keywords.any fun kw => pyContains comment kw)
        && !(strengths.contains "전반적으로 만족") then
      strengths ++ ["전반적으로 만족"]
    else strengths
  ⟨sentiment, improvement_areas, strengths⟩

/-- The three-bucket sentiment counters of the metrics aggregate. -/
structure SentimentDistribution where
  positive : Nat
  neutral : Nat
  negative : Nat
deriving DecidableEq

/-- The learning-metrics singleton (learning.py lines 289-301;
`last_updated` is clock-valued and not modelled). -/
structure LearningMetrics where
  total_feedback_count : Nat
  average_rating : ℚ
  sentiment_distribution : SentimentDistribution
  improvement_areas : List (String × Nat)
  strengths : List (String × Nat)
deriving DecidableEq

/-- The zero aggregate installed when no metrics row exists. -/
def initial_metrics : LearningMetrics := ⟨0, 0, ⟨0, 0, 0⟩, [], []⟩

/-- `metrics["sentiment_distribution"][sentiment] += 1` (learning.py line
313): any sentiment outside the three stored keys raises `KeyError`,
which the method's `except` swallows, leaving the stored metrics
unwritten. -/
def bump_sentiment (d : SentimentDistribution) (s : String) :
    Option SentimentDistribution :=
  if s = "positive" then some { d with positive := d.positive + 1 }
  else if s = "neutral" then some { d with neutral := d.neutral + 1 }
  else if s = "negative" then some { d with negative := d.negative + 1 }
  else none

/-- One counter increment in an area/strength map (learning.py lines
316-327). -/
def bump_counter : List (String × Nat) → String → List (String × Nat)
  | [], k => [(k, 1)]
  | (k0, n) :: rest, k =>
    if k0 = k then (k0, n + 1) :: rest else (k0, n) :: bump_counter rest k

/-- All increments for one analysis result. -/
def bump_counters (m : List (String × Nat)) (ks : List String) :
    List (String × Nat) :=
  ks.foldl bump_counter m

/-- `_update_learning_metrics` (learning.py lines 281-341) as a
transition on the stored metrics row: initialize when absent, increment
the count, update the running mean from the raw rating
(`.get("rating", 0)`), bump the sentiment/area/strength counters, and
keep the old row on the (unreachable here) `KeyError` path. -/
def update_learning_metrics (db : Option LearningMetrics)
    (rating : Option Int) (analysis : FeedbackAnalysis) :
    Option LearningMetrics :=
  let metrics := db.getD initial_metrics
  let n := metrics.total_feedback_count + 1
  let current_total := metrics.average_rating * ((n : ℚ) - 1)
  let new_total := current_total + ((rating.getD 0 : Int) : ℚ)
  let average := new_total / (n : ℚ)
  match bump_sentiment metrics.sentiment_distribution analysis.sentiment with
  | none => db
  | some sd =>
    some { total_feedback_count := n
           average_rating := average
           sentiment_distribution := sd
           improvement_areas :=
             bump_counters metrics.improvement_areas analysis.improvement_areas
           strengths := bump_counters metrics.strengths analysis.strengths }

/-- The metrics effect of one `process_feedback` call (learning.py lines
100-104): analyze the submitted feedback, then update the aggregate. -/
def process_feedback_metrics (db : Option LearningMetrics)
    (rating : Option Int) (feedback_type comment : Option String) :
    Option LearningMetrics :=
  update_learning_metrics db rating
    (learning_analyze_feedback rating feedback_type comment)

/-- The rating-derived sentiment always lands in one of the three stored
buckets, so the sentiment bump of a `process_feedback` update always
succeeds. -/
theorem bump_sentiment_learning_isSome (d : SentimentDistribution)
    (rating : Option Int) (ft c : Option String) :
    (bump_sentiment d
      (learning_analyze_feedback rating ft c).sentiment).isSome = true := by
  have hs : (learning_analyze_feedback rating ft c).sentiment =
      rating_sentiment_learning (rating.getD 0) := rfl
  rw [hs]
  unfold rating_sentiment_learning
  split_ifs <;> simp [bump_sentiment]

/-- C7: each `process_feedback` metrics update is the running aggregate
`new_average = (old_average * (n - 1) + new_rating) / n` with `n` the
incremented feedback count (no recomputation from stored feedback), and
processing ratings 5, 3, 1 from an empty store leaves
`total_feedback_count = 3` and `average_rating = 3`. -/
theorem c7_learning_metrics_aggregate :
    (∀ (m : LearningMetrics) (r : Int) (ft c : Option String),
      (process_feedback_metrics (some m) (some r) ft c).isSome = true ∧
      ((process_feedback_metrics (some m) (some r) ft c).getD
          initial_metrics).total_feedback_count =
        m.total_feedback_count + 1 ∧
      ((process_feedback_metrics (some m) (some r) ft c).getD
          initial_metrics).average_rating =
        (m.average_rating * (((m.total_feedback_count : ℚ) + 1) - 1) + (r : ℚ)) /
          ((m.total_feedback_count : ℚ) + 1)) ∧
    (process_feedback_metrics (process_feedback_metrics
        (process_feedback_metrics none (some 5) none none)
        (some 3) none none) (some 1) none none =
      some ⟨3, 3, ⟨1, 1, 1⟩, [], []⟩) := by
  constructor
  · intro m r ft c
    have hb := bump_sentiment_learning_isSome m.sentiment_distribution
      (some r) ft c
    obtain ⟨sd, hsd⟩ := Option.isSome_iff_exists.mp hb
    refine ⟨?_, ?_, ?_⟩ <;>
      simp [process_feedback_metrics, update_learning_metrics, hsd]
  · simp [process_feedback_metrics, update_learning_metrics,
      learning_analyze_feedback, rating_sentiment_learning, bump_sentiment,
      bump_counters, bump_counter, initial_metrics]
    norm_num

/-- C8 counterexample: a feedback submitted to learning.py's
`process_feedback` with rating 10 is stored with rating 10 — outside
[1, 5], nothing clamps it — and analyzed with the raw 10 (classified
"positive"), so the claim that every processed rating is clamped into
[1, 5] before storage and analysis is false. -/
theorem c8_counterexample :
    (store_feedback_record (some "f1") (some "r1") none none (some 10)
      none none).rating = some 10 ∧
    ¬ ((10 : Int) ≤ 5) ∧
    (learning_analyze_feedback (some 10) none none).sentiment =
      "positive" := by
  refine ⟨rfl, by decide, rfl⟩

/-! ## Adaptive-learning protocol (`app/protocols/adaptive_learning.py`)

The in-memory `AdaptiveLearningProtocol` variant: its
`_validate_feedback` is where the rating clamp lives. -/

/-- The caller's feedback dict, by the keys `process_feedback` and
`_validate_feedback` read (`none` = absent). -/
structure ALFeedback where
  id : Option String := none
  type : Option String := none
  content : Option String := none
  rating : Option Int := none
  timestamp : Option String := none
deriving DecidableEq

/-- The validated feedback `_validate_feedback` returns. -/
structure ValidatedFeedback where
  id : String
  type : String
  content : String
  rating : Int
  timestamp : String
deriving DecidableEq

/-- `_validate_feedback` (adaptive_learning.py lines 86-109): defaults
for missing fields and `min(max(rating, 1), 5)` clamping of the rating
(missing rating defaults to 5); `auto_id` and `now` stand for the
generated fallback id and the current timestamp. -/
def validate_feedback (fb : ALFeedback) (auto_id now : String) :
    ValidatedFeedback :=
  { id := fb.id.getD auto_id
    type := fb.type.getD "general"
    content := fb.content.getD ""
    rating := min (max (fb.rating.getD 5) 1) 5
    timestamp := fb.timestamp.getD now }

/-- The improvement-suggestion trigger of `process_feedback`
(adaptive_learning.py line 61): it reads the original dict, not the
validated one — `feedback.get("rating", 5) < 4`. -/
def improvement_suggestion_triggered (fb : ALFeedback) : Bool :=
  fb.rating.getD 5 < 4

/-- The result shape of `_analyze_rating` (the constant-empty `aspects`
dict is not modelled). -/
structure RatingAnalysis where
  sentiment : String
  summary : String
  confidence : ℚ
deriving DecidableEq

/-- `_analyze_rating` (adaptive_learning.py lines 137-156). -/
def analyze_rating (rating : Int) : RatingAnalysis :=
  if rating ≥ 4 then ⟨"positive", "사용자가 응답에 만족했습니다.", 9/10⟩
  else if rating ≥ 3 then
    ⟨"neutral", "사용자가 응답에 보통 수준으로 만족했습니다.", 9/10⟩
  else ⟨"negative", "사용자가 응답에 불만족했습니다.", 9/10⟩

/-- The rating validation of the feedback API endpoint (api/feedback.py
lines 49-50): out-of-range ratings are rejected with HTTP 400, not
clamped. -/
def api_rating_accepted (rating : Int) : Bool :=
  !(rating < 1 || rating > 5)

/-- C8 (amended): the clamp lives in the adaptive-learning protocol's
validation — `_validate_feedback` puts every rating it passes on to
storage and analysis into [1, 5], sending a rating below 1 to 1 and one
above 5 to 5 — while the feedback API rejects (rather than clamps)
out-of-range ratings, and learning.py's own path stores them raw (the
counterexample). -/
theorem c8_validate_feedback_clamps :
    (∀ (fb : ALFeedback) (auto_id now : String),
      1 ≤ (validate_feedback fb auto_id now).rating ∧
      (validate_feedback fb auto_id now).rating ≤ 5) ∧
    (∀ (fb : ALFeedback) (auto_id now : String) (x : Int),
      fb.rating = some x →
      (x < 1 → (validate_feedback fb auto_id now).rating = 1) ∧
      (5 < x → (validate_feedback fb auto_id now).rating = 5)) ∧
    (∀ (x : Int), api_rating_accepted x = true ↔ 1 ≤ x ∧ x ≤ 5) := by
  refine ⟨?_, ?_, ?_⟩
  · intro fb auto_id now
    constructor
    · simp only [validate_feedback]
      omega
    · simp only [validate_feedback]
      omega
  · intro fb auto_id now x hx
    constructor
    · intro h1
      simp only [validate_feedback, hx, Option.getD_some]
      omega
    · intro h5
      simp only [validate_feedback, hx, Option.getD_some]
      omega
  · intro x
    simp only [api_rating_accepted, Bool.not_eq_true', Bool.or_eq_false_iff,
      decide_eq_false_iff_not, not_lt]

/-- C8 witness for the amended claim: a submitted rating of -3 is clamped
to 1 by the adaptive-learning validation. -/
theorem c8_witness :
    (validate_feedback ⟨none, none, none, some (-3), none⟩ "fid"
      "ts").rating = 1 :=
  (c8_validate_feedback_clamps.2.1 ⟨none, none, none, some (-3), none⟩
    "fid" "ts" (-3) rfl).1 (by decide)

/-- C10: a feedback dict submitted without a `rating` key is validated to
the maximum rating 5 (so it is stored and rating-analyzed as maximally
positive), and the improvement-suggestion trigger — which reads the
original dict with default 5 — never fires for it. -/
theorem c10_missing_rating_is_maximal :
    ∀ (fb : ALFeedback) (auto_id now : String), fb.rating = none →
      (validate_feedback fb auto_id now).rating = 5 ∧
      (analyze_rating (validate_feedback fb auto_id now).rating).sentiment =
        "positive" ∧
      improvement_suggestion_triggered fb = false := by
  intro fb auto_id now h
  refine ⟨?_, ?_, ?_⟩
  · simp [validate_feedback, h]
  · simp [validate_feedback, h, analyze_rating]
  · simp [improvement_suggestion_triggered, h]

/-- C10 witness: the empty feedback dict. -/
theorem c10_witness :
    (validate_feedback ⟨none, none, none, none, none⟩ "fid" "ts").rating =
      5 ∧
    improvement_suggestion_triggered ⟨none, none, none, none, none⟩ =
      false :=
  ⟨(c10_missing_rating_is_maximal ⟨none, none, none, none, none⟩ "fid" "ts"
      rfl).1,
    (c10_missing_rating_is_maximal ⟨none, none, none, none, none⟩ "fid" "ts"
      rfl).2.2⟩
